import Mathlib

/-!
Verification of the DESI tutorials repository (survey-simulation notebook,
truth-comparison notebook, redrock BOSS demo notebook).

The notebooks load externally produced tables and compute small derived
quantities.  The definitions below are a shallow embedding of those
computations: table rows become structures over `ℚ`/`Int`, numpy boolean
masks become list filters, and numpy reductions become list folds.
-/

/-- One row of the `exposures` HDU of `exposures.fits`: one record per
simulated exposure (columns used by the notebook: `mjd`, `tileid`,
`EXPTIME`, `SEEING`, `AIRMASS`, `snr2frac`). -/
structure Exposure where
  mjd : ℚ
  tileid : Int
  exptime : ℚ
  seeing : ℚ
  airmass : ℚ
  snr2frac : ℚ
deriving DecidableEq

/-- One row of the `tiledata` HDU of `exposures.fits`: per-tile summary
statistics (columns used by the notebook: `snr2frac`, `exptime`, `avail`). -/
structure TileStatRow where
  snr2frac : ℚ
  exptime : ℚ
  avail : Int
deriving DecidableEq

/-- One row of the tile catalog returned by `desisurvey.tiles.get_tiles()`. -/
structure TileInfo where
  tileID : Int
  tileRA : ℚ
  tileDEC : ℚ
  passnum : Nat
deriving DecidableEq

/-- The tile catalog object (`tiles`): its per-tile rows, in catalog order,
and the list of pass numbers (`tiles.passes`). -/
structure Tiles where
  rows : List TileInfo
  passes : List Nat

/-- `tiles.index(tileid)`: the row index of a tile id in the catalog. -/
def Tiles.index (tl : Tiles) (tid : Int) : Nat :=
  tl.rows.findIdx (fun t => t.tileID == tid)

/-- `tiles.passnum[tiles.index(tileid)]`: pass number of the tile with the
given id, looked up by id in the catalog (0 if the id is absent, a case the
notebook never exercises). -/
def Tiles.tilepass (tl : Tiles) (tid : Int) : Nat :=
  ((tl.rows[tl.index tid]?).map (fun t => t.passnum)).getD 0

/-- The notebook function `completed_in_timerange(exposures, startmjd, stopmjd)`:
mask `m` keeps exposures with `mjd > startmjd` and `mjd < stopmjd`; `tilepass`
maps each exposure's `tileid` to its pass; for each `pass0` in `tiles.passes`
it sums, over the masked exposures of that pass, the booleans
`snr2frac >= 1`. -/
def completed_in_timerange (tl : Tiles) (exposures : List Exposure)
    (startmjd stopmjd : ℚ) : List Nat :=
  tl.passes.map fun pass0 =>
    ((exposures.filter fun e =>
        (decide (e.mjd > startmjd) && decide (e.mjd < stopmjd)) &&
          (tl.tilepass e.tileid == pass0)).map
      (fun e => e.snr2frac)).countP (fun s => decide ((1 : ℚ) ≤ s))

/-- The count the specification describes for a single pass: the number of
exposures strictly inside the MJD interval whose tile has that pass number
and whose `snr2frac` is at least 1. -/
def specPassCount (tl : Tiles) (exposures : List Exposure)
    (startmjd stopmjd : ℚ) (p : Nat) : Nat :=
  (exposures.filter fun e =>
    decide (startmjd < e.mjd) && decide (e.mjd < stopmjd) &&
      (tl.tilepass e.tileid == p) && decide ((1 : ℚ) ≤ e.snr2frac)).length

/-- Counting a predicate on a mapped column of a filtered list is the length
of the conjunctively filtered list. -/
theorem countP_map_filter {α β : Type} (l : List α) (f : α → β)
    (q : α → Bool) (r : β → Bool) :
    ((l.filter q).map f).countP r =
      (l.filter fun a => q a && r (f a)).length := by
  induction l with
  | nil => rfl
  | cons a t ih =>
    by_cases hq : q a
    · by_cases hr : r (f a) <;>
        simp [List.filter_cons, List.countP_cons, hq, hr, ih]
    · simp [List.filter_cons, hq, ih]

/-- Claim C1: for every exposures table and MJD interval,
`completed_in_timerange` returns one count per pass, in the order of
`tiles.passes`, the count for pass `p` being the number of exposures whose
`mjd` lies strictly between `startmjd` and `stopmjd` (endpoints excluded),
whose tile — looked up by `tileid` in the tile catalog — has pass number
`p`, and whose `snr2frac` is at least 1. -/
theorem completed_in_timerange_counts_per_pass (tl : Tiles)
    (exposures : List Exposure) (startmjd stopmjd : ℚ) :
    completed_in_timerange tl exposures startmjd stopmjd =
      tl.passes.map (specPassCount tl exposures startmjd stopmjd) := by
  unfold completed_in_timerange specPassCount
  apply List.map_congr_left
  intro p _
  rw [countP_map_filter]

/-- `numpy.min` on a rational column: fold of `min` (0 on the empty array,
which numpy instead rejects; the notebook only applies it to a populated
exposure list). -/
def npMinQ : List ℚ → ℚ
  | [] => 0
  | x :: xs => xs.foldl min x

/-- `numpy.max` on a rational column: fold of `max` (0 on the empty array). -/
def npMaxQ : List ℚ → ℚ
  | [] => 0
  | x :: xs => xs.foldl max x

theorem foldl_min_mem {α : Type} [LinearOrder α] (xs : List α) (a : α) :
    xs.foldl min a ∈ a :: xs := by
  induction xs generalizing a with
  | nil => simp
  | cons b t ih =>
    simp only [List.foldl_cons]
    have h := ih (min a b)
    simp only [List.mem_cons] at h ⊢
    rcases h with h | h
    · rcases le_total a b with hab | hab
      · exact Or.inl (h.trans (min_eq_left hab))
      · exact Or.inr (Or.inl (h.trans (min_eq_right hab)))
    · exact Or.inr (Or.inr h)

theorem foldl_min_le {α : Type} [LinearOrder α] (xs : List α) (a : α) :
    ∀ x ∈ a :: xs, xs.foldl min a ≤ x := by
  induction xs generalizing a with
  | nil =>
    intro x hx
    simp only [List.mem_cons, List.not_mem_nil, or_false] at hx
    simp [hx]
  | cons b t ih =>
    intro x hx
    simp only [List.foldl_cons]
    simp only [List.mem_cons] at hx
    rcases hx with h | h | h
    · rw [h]
      exact le_trans (ih (min a b) (min a b) (by simp)) (min_le_left a b)
    · rw [h]
      exact le_trans (ih (min a b) (min a b) (by simp)) (min_le_right a b)
    · exact ih (min a b) x (by simp [h])

theorem foldl_max_mem {α : Type} [LinearOrder α] (xs : List α) (a : α) :
    xs.foldl max a ∈ a :: xs := by
  induction xs generalizing a with
  | nil => simp
  | cons b t ih =>
    simp only [List.foldl_cons]
    have h := ih (max a b)
    simp only [List.mem_cons] at h ⊢
    rcases h with h | h
    · rcases le_total a b with hab | hab
      · exact Or.inr (Or.inl (h.trans (max_eq_right hab)))
      · exact Or.inl (h.trans (max_eq_left hab))
    · exact Or.inr (Or.inr h)

theorem le_foldl_max {α : Type} [LinearOrder α] (xs : List α) (a : α) :
    ∀ x ∈ a :: xs, x ≤ xs.foldl max a := by
  induction xs generalizing a with
  | nil =>
    intro x hx
    simp only [List.mem_cons, List.not_mem_nil, or_false] at hx
    simp [hx]
  | cons b t ih =>
    intro x hx
    simp only [List.foldl_cons]
    simp only [List.mem_cons] at hx
    rcases hx with h | h | h
    · rw [h]
      exact le_trans (le_max_left a b) (ih (max a b) (max a b) (by simp))
    · rw [h]
      exact le_trans (le_max_right a b) (ih (max a b) (max a b) (by simp))
    · exact ih (max a b) x (by simp [h])

/-- Summing a 0/1 indicator over a list counts the rows satisfying the
predicate (the numpy idiom `numpy.sum(column >= threshold)`). -/
theorem sum_ite_one_zero {α : Type} (l : List α) (p : α → Prop)
    [DecidablePred p] :
    (l.map fun a => if p a then (1 : Nat) else 0).sum =
      (l.filter fun a => decide (p a)).length := by
  induction l with
  | nil => rfl
  | cons a t ih =>
    by_cases h : p a
    · simp [List.filter_cons, h, ih, Nat.add_comm]
    · simp [List.filter_cons, h, ih]

/-- The four values interpolated into the notebook's survey-summary print
statement, in order: start date, end date, tiles observed, exposure count.
The date type is abstract because `desisurvey.utils.get_date` is external. -/
structure SurveySummaryLine (D : Type) where
  startDate : D
  endDate : D
  ntiles : Nat
  nexp : Nat

/-- The notebook's summary print: `get_date(numpy.min(exposures['mjd']))`,
`get_date(numpy.max(exposures['mjd']))`, `numpy.sum(tilestats['snr2frac'] >= 1)`,
`len(exposures)`. -/
def surveySummary {D : Type} (getDate : ℚ → D) (exposures : List Exposure)
    (tilestats : List TileStatRow) : SurveySummaryLine D :=
  { startDate := getDate (npMinQ (exposures.map (fun e => e.mjd)))
    endDate := getDate (npMaxQ (exposures.map (fun e => e.mjd)))
    ntiles := (tilestats.map fun t =>
      if (1 : ℚ) ≤ t.snr2frac then (1 : Nat) else 0).sum
    nexp := exposures.length }

/-- Claim C5: the survey-summary print reports the number of tiles observed
as the number of tile rows with `snr2frac ≥ 1`, the number of exposures as
the length of the exposures table, and the survey start and end as the
dates of the minimum and maximum exposure MJD (the reported MJD is a member
of the `mjd` column bounding it below resp. above). -/
theorem surveySummary_reports {D : Type} (getDate : ℚ → D)
    (exposures : List Exposure) (tilestats : List TileStatRow)
    (h : exposures ≠ []) :
    (npMinQ (exposures.map (fun e => e.mjd)) ∈ exposures.map (fun e => e.mjd) ∧
      ∀ x ∈ exposures.map (fun e => e.mjd),
        npMinQ (exposures.map (fun e => e.mjd)) ≤ x) ∧
    (npMaxQ (exposures.map (fun e => e.mjd)) ∈ exposures.map (fun e => e.mjd) ∧
      ∀ x ∈ exposures.map (fun e => e.mjd),
        x ≤ npMaxQ (exposures.map (fun e => e.mjd))) ∧
    (surveySummary getDate exposures tilestats).startDate =
      getDate (npMinQ (exposures.map (fun e => e.mjd))) ∧
    (surveySummary getDate exposures tilestats).endDate =
      getDate (npMaxQ (exposures.map (fun e => e.mjd))) ∧
    (surveySummary getDate exposures tilestats).ntiles =
      (tilestats.filter fun t => decide ((1 : ℚ) ≤ t.snr2frac)).length ∧
    (surveySummary getDate exposures tilestats).nexp = exposures.length := by
  obtain ⟨e0, es, rfl⟩ : ∃ e0 es, exposures = e0 :: es := by
    cases exposures with
    | nil => exact absurd rfl h
    | cons e0 es => exact ⟨e0, es, rfl⟩
  refine ⟨⟨?_, ?_⟩, ⟨?_, ?_⟩, rfl, rfl, ?_, rfl⟩
  · exact foldl_min_mem _ _
  · exact foldl_min_le _ _
  · exact foldl_max_mem _ _
  · exact le_foldl_max _ _
  · exact sum_ite_one_zero _ _

/-- Concrete exposures table used to witness claim C5. -/
def c5Exposures : List Exposure := [⟨58821, 1, 1200, 1, 1, 1⟩]

/-- Concrete tile-summary table used to witness claim C5. -/
def c5Tilestats : List TileStatRow := [⟨1, 1200, 0⟩, ⟨(1 : ℚ)/2, 600, 0⟩]

/-- Witness for claim C5 at a one-exposure, two-tile input. -/
theorem surveySummary_reports_witness :
    (npMinQ (c5Exposures.map (fun e => e.mjd)) ∈ c5Exposures.map (fun e => e.mjd) ∧
      ∀ x ∈ c5Exposures.map (fun e => e.mjd),
        npMinQ (c5Exposures.map (fun e => e.mjd)) ≤ x) ∧
    (npMaxQ (c5Exposures.map (fun e => e.mjd)) ∈ c5Exposures.map (fun e => e.mjd) ∧
      ∀ x ∈ c5Exposures.map (fun e => e.mjd),
        x ≤ npMaxQ (c5Exposures.map (fun e => e.mjd))) ∧
    (surveySummary (fun q => q) c5Exposures c5Tilestats).startDate =
      (fun q => q) (npMinQ (c5Exposures.map (fun e => e.mjd))) ∧
    (surveySummary (fun q => q) c5Exposures c5Tilestats).endDate =
      (fun q => q) (npMaxQ (c5Exposures.map (fun e => e.mjd))) ∧
    (surveySummary (fun q => q) c5Exposures c5Tilestats).ntiles =
      (c5Tilestats.filter fun t => decide ((1 : ℚ) ≤ t.snr2frac)).length ∧
    (surveySummary (fun q => q) c5Exposures c5Tilestats).nexp =
      c5Exposures.length :=
  surveySummary_reports (fun q => q) c5Exposures c5Tilestats (by simp [c5Exposures])

/-- The positional combination performed by the first notebook:
`plot_sky_passes(tiles.tileRA, tiles.tileDEC, tiles.passnum, tilestats['avail'])`
hands the plotting helper the i-th catalog row together with the i-th
`tiledata` row; there is no explicit join key. -/
def pairedByIndex (tl : Tiles) (tilestats : List TileStatRow) :
    List (TileInfo × TileStatRow) :=
  tl.rows.zip tilestats

theorem zip_map_self {α β : Type} (l : List α) (f : α → β) :
    ∀ pr ∈ l.zip (l.map f), pr.2 = f pr.1 := by
  induction l with
  | nil =>
    intro pr h
    simp at h
  | cons a t ih =>
    intro pr h
    simp only [List.map_cons, List.zip_cons_cons, List.mem_cons] at h
    rcases h with h | h
    · rw [h]
    · exact ih pr h

theorem zip_mismatch {α β : Type} (l : List α) (s : List β) (f : α → β)
    (hlen : s.length = l.length) (hne : s ≠ l.map f) :
    ∃ pr ∈ l.zip s, pr.2 ≠ f pr.1 := by
  induction l generalizing s with
  | nil =>
    cases s with
    | nil => exact absurd rfl hne
    | cons b u => simp at hlen
  | cons a t ih =>
    cases s with
    | nil => simp at hlen
    | cons b u =>
      by_cases hb : b = f a
      · subst hb
        have hu : u ≠ t.map f := by
          intro h
          exact hne (by rw [h, List.map_cons])
        obtain ⟨pr, hpr, hne2⟩ := ih u (by simpa using hlen) hu
        exact ⟨pr, by simp only [List.zip_cons_cons, List.mem_cons]; exact Or.inr hpr, hne2⟩
      · exact ⟨(a, b), by simp [List.zip_cons_cons], hb⟩

/-- Claim C6: the tile catalog and the `tiledata` HDU are combined purely by
row position.  When the stats table lists, in catalog order, exactly the
statistics belonging to each tile (`statOf` its tile id), every produced
pair associates a tile with its own statistics; when the two tables have
equal length but the stats are not in catalog order, some produced pair
associates a tile with another tile's statistics. -/
theorem pairedByIndex_positional (tl : Tiles) (tilestats : List TileStatRow)
    (statOf : Int → TileStatRow) :
    (tilestats = tl.rows.map (fun t => statOf t.tileID) →
      ∀ pr ∈ pairedByIndex tl tilestats, pr.2 = statOf pr.1.tileID) ∧
    (tilestats.length = tl.rows.length →
      tilestats ≠ tl.rows.map (fun t => statOf t.tileID) →
      ∃ pr ∈ pairedByIndex tl tilestats, pr.2 ≠ statOf pr.1.tileID) := by
  constructor
  · intro h pr hpr
    subst h
    exact zip_map_self tl.rows (fun t => statOf t.tileID) pr hpr
  · intro hlen hne
    exact zip_mismatch tl.rows tilestats _ hlen hne

/-- Two-tile catalog used to witness claim C6. -/
def c6Tiles : Tiles := ⟨[⟨1, 10, 20, 0⟩, ⟨2, 30, 40, 1⟩], [0, 1]⟩

/-- Ground-truth association of tile ids to their statistics for the C6
witness. -/
def c6StatOf : Int → TileStatRow :=
  fun tid => if tid = 1 then ⟨1, 100, 0⟩ else ⟨0, 50, 1⟩

/-- Stats table in catalog order for the C6 witness. -/
def c6Aligned : List TileStatRow := [⟨1, 100, 0⟩, ⟨0, 50, 1⟩]

/-- Stats table in swapped order for the C6 witness. -/
def c6Swapped : List TileStatRow := [⟨0, 50, 1⟩, ⟨1, 100, 0⟩]

/-- Witness for claim C6: with aligned stats every pair is correctly
associated; with swapped stats some pair is mis-associated. -/
theorem pairedByIndex_positional_witness :
    (∀ pr ∈ pairedByIndex c6Tiles c6Aligned, pr.2 = c6StatOf pr.1.tileID) ∧
    (∃ pr ∈ pairedByIndex c6Tiles c6Swapped, pr.2 ≠ c6StatOf pr.1.tileID) :=
  ⟨(pairedByIndex_positional c6Tiles c6Aligned c6StatOf).1 (by decide),
   (pairedByIndex_positional c6Tiles c6Swapped c6StatOf).2 (by decide) (by decide)⟩

/-- Whitespace characters stripped by Python's `str.strip` / `numpy.char.strip`. -/
def isPySpace (c : Char) : Bool :=
  c = ' ' || c = '\t' || c = '\n' || c = '\r' || c = '\x0b' || c = '\x0c'

/-- `numpy.char.strip` on one string (as a character list): removes leading
and trailing whitespace. -/
def npStrip (l : List Char) : List Char :=
  (l.dropWhile isPySpace).rdropWhile isPySpace

theorem npStrip_idem (l : List Char) : npStrip (npStrip l) = npStrip l := by
  unfold npStrip
  have h1 : ((l.dropWhile isPySpace).rdropWhile isPySpace).dropWhile isPySpace =
      (l.dropWhile isPySpace).rdropWhile isPySpace := by
    rw [List.dropWhile_eq_self_iff]
    intro hl
    have hpre : (l.dropWhile isPySpace).rdropWhile isPySpace <+: l.dropWhile isPySpace :=
      List.rdropWhile_prefix _ _
    have hl2 : 0 < (l.dropWhile isPySpace).length := lt_of_lt_of_le hl hpre.length_le
    have hnot := List.dropWhile_get_zero_not isPySpace l hl2
    simp only [List.get_eq_getElem] at hnot ⊢
    rwa [List.IsPrefix.getElem hpre]
  rw [h1, List.rdropWhile_idempotent]

/-- One row of the truth tables (`truth-bright.fits` / `truth-dark.fits`);
columns used by the notebook: `TARGETID`, `TRUEZ`, `TEMPLATETYPE`. -/
structure TruthRow where
  TARGETID : Int
  TRUEZ : ℚ
  TEMPLATETYPE : List Char
deriving DecidableEq

/-- One row of the redshift catalog `zcatalog-mini.fits`; columns used by
the notebook: `TARGETID`, `Z`, `ZERR`, `ZWARN`, `SPECTYPE`. -/
structure ZcatRow where
  TARGETID : Int
  Z : ℚ
  ZERR : ℚ
  ZWARN : Int
  SPECTYPE : List Char
deriving DecidableEq

/-- One row of the target tables (only the key column matters here). -/
structure TargetRow where
  TARGETID : Int
deriving DecidableEq

/-- The five tables the second notebook loads from disk. -/
structure Session where
  zcat : List ZcatRow
  targets_bright : List TargetRow
  targets_dark : List TargetRow
  truth_bright : List TruthRow
  truth_dark : List TruthRow
deriving DecidableEq

/-- Reading the `TEMPLATETYPE` column: `truth['TEMPLATETYPE'][:]`. -/
def templatetypeColumn (t : List TruthRow) : List (List Char) :=
  t.map (fun r => r.TEMPLATETYPE)

/-- `np.char.strip` applied to a whole string column. -/
def npCharStrip (col : List (List Char)) : List (List Char) :=
  col.map npStrip

/-- In-place column assignment `truth['TEMPLATETYPE'][:] = col`: each row
keeps its other attributes and takes the positionally corresponding new
`TEMPLATETYPE` value. -/
def setTemplatetypeColumn (t : List TruthRow) (col : List (List Char)) :
    List TruthRow :=
  (t.zip col).map (fun rc => { rc.1 with TEMPLATETYPE := rc.2 })

/-- The effect of `truth['TEMPLATETYPE'][:] = np.char.strip(truth['TEMPLATETYPE'][:])`
on one truth table. -/
def stripTable (t : List TruthRow) : List TruthRow :=
  setTemplatetypeColumn t (npCharStrip (templatetypeColumn t))

/-- The TEMPLATETYPE-stripping cell of the second notebook, acting on the
session's loaded tables. -/
def stripCell (s : Session) : Session :=
  { s with
    truth_bright := stripTable s.truth_bright
    truth_dark := stripTable s.truth_dark }

theorem setTemplatetypeColumn_map (t : List TruthRow) (g : TruthRow → List Char) :
    setTemplatetypeColumn t (t.map g) =
      t.map (fun r => { r with TEMPLATETYPE := g r }) := by
  induction t with
  | nil => rfl
  | cons r t ih =>
    simp only [List.map_cons, setTemplatetypeColumn, List.zip_cons_cons] at ih ⊢
    exact congrArg _ ih

theorem stripTable_eq (t : List TruthRow) :
    stripTable t = t.map (fun r => { r with TEMPLATETYPE := npStrip r.TEMPLATETYPE }) := by
  unfold stripTable npCharStrip templatetypeColumn
  rw [List.map_map]
  exact setTemplatetypeColumn_map t _

theorem stripTable_idem (t : List TruthRow) :
    stripTable (stripTable t) = stripTable t := by
  rw [stripTable_eq, stripTable_eq, List.map_map]
  apply List.map_congr_left
  intro r _
  simp only [Function.comp]
  rw [npStrip_idem]

/-- Session whose dark truth table holds one row with a trailing space in
`TEMPLATETYPE`, as the FITS files deliver it. -/
def c2Session : Session :=
  ⟨[], [], [], [], [⟨100, 1, ['Q', 'S', 'O', ' ']⟩]⟩

/-- Claim C2, counterexample: the claim says no operation modifies any
attribute of a loaded record, but the TEMPLATETYPE-stripping cell rewrites
the loaded truth tables in place: on a session holding a `TEMPLATETYPE`
value with a trailing space, the session after the cell differs from the
session as loaded. -/
theorem stripCell_mutates_loaded_table : stripCell c2Session ≠ c2Session := by
  decide

/-- Claim C2 (amended): after the TEMPLATETYPE-stripping cell — the only
operation in the notebooks that writes into a loaded table — every loaded
table except the `TEMPLATETYPE` columns of `truth_bright` and `truth_dark`
holds the same values as immediately after its read, and those two columns
hold the whitespace-stripped forms of their loaded values. -/
theorem stripCell_frame (s : Session) :
    (stripCell s).zcat = s.zcat ∧
    (stripCell s).targets_bright = s.targets_bright ∧
    (stripCell s).targets_dark = s.targets_dark ∧
    (stripCell s).truth_bright =
      s.truth_bright.map (fun r => { r with TEMPLATETYPE := npStrip r.TEMPLATETYPE }) ∧
    (stripCell s).truth_dark =
      s.truth_dark.map (fun r => { r with TEMPLATETYPE := npStrip r.TEMPLATETYPE }) :=
  ⟨rfl, rfl, rfl, stripTable_eq _, stripTable_eq _⟩

/-- Claim C10: the stripping cell modifies only the `TEMPLATETYPE` column of
`truth_bright` and `truth_dark` — the other tables and the other columns of
those tables are unchanged — and it is idempotent. -/
theorem stripCell_only_templatetype_and_idempotent (s : Session) :
    (stripCell s).zcat = s.zcat ∧
    (stripCell s).targets_bright = s.targets_bright ∧
    (stripCell s).targets_dark = s.targets_dark ∧
    (stripCell s).truth_bright.map (fun r => r.TARGETID) =
      s.truth_bright.map (fun r => r.TARGETID) ∧
    (stripCell s).truth_bright.map (fun r => r.TRUEZ) =
      s.truth_bright.map (fun r => r.TRUEZ) ∧
    (stripCell s).truth_dark.map (fun r => r.TARGETID) =
      s.truth_dark.map (fun r => r.TARGETID) ∧
    (stripCell s).truth_dark.map (fun r => r.TRUEZ) =
      s.truth_dark.map (fun r => r.TRUEZ) ∧
    stripCell (stripCell s) = stripCell s := by
  refine ⟨rfl, rfl, rfl, ?_, ?_, ?_, ?_, ?_⟩
  · show (stripTable s.truth_bright).map _ = _
    rw [stripTable_eq, List.map_map]
    rfl
  · show (stripTable s.truth_bright).map _ = _
    rw [stripTable_eq, List.map_map]
    rfl
  · show (stripTable s.truth_dark).map _ = _
    rw [stripTable_eq, List.map_map]
    rfl
  · show (stripTable s.truth_dark).map _ = _
    rw [stripTable_eq, List.map_map]
    rfl
  · cases s
    simp only [stripCell, stripTable_idem]

/-- `astropy.table.join(zcat, truth_dark, keys='TARGETID')`: the notebook
merges the two catalogs "in a database-like manner" (its own words).  The
join logic lives in astropy, outside this repository; it is modelled here
by its documented inner-join semantics: one output row per pair of input
rows sharing a `TARGETID`. -/
def joinOnTargetid (zcat : List ZcatRow) (truth : List TruthRow) :
    List (ZcatRow × TruthRow) :=
  zcat.flatMap fun z =>
    (truth.filter fun t => t.TARGETID == z.TARGETID).map fun t => (z, t)

/-- Claim C4: the merged `ztruth` table is the inner join of `zcat` and
`truth_dark` on `TARGETID`: a pair of rows appears in the result exactly
when the first comes from `zcat`, the second from `truth_dark`, and the two
have equal `TARGETID` — so every output row matches on the key, every
matching pair contributes, and no output row pairs differing keys. -/
theorem joinOnTargetid_mem (zcat : List ZcatRow) (truth : List TruthRow)
    (p : ZcatRow × TruthRow) :
    p ∈ joinOnTargetid zcat truth ↔
      p.1 ∈ zcat ∧ p.2 ∈ truth ∧ p.1.TARGETID = p.2.TARGETID := by
  obtain ⟨z, t⟩ := p
  simp only [joinOnTargetid, List.mem_flatMap, List.mem_map, List.mem_filter,
    beq_iff_eq, Prod.mk.injEq]
  constructor
  · rintro ⟨z', hz', t', ⟨ht', hkey⟩, rfl, rfl⟩
    exact ⟨hz', ht', hkey.symm⟩
  · rintro ⟨hz, ht, hkey⟩
    exact ⟨z, hz, t, ⟨ht, hkey.symm⟩, rfl, rfl⟩

/-- The notebook's derived column on the joined table:
`dv = 3e5 * (ztruth['Z'] - ztruth['TRUEZ']) / (1 + ztruth['TRUEZ'])`. -/
def dv (r : ZcatRow × TruthRow) : ℚ :=
  3e5 * (r.1.Z - r.2.TRUEZ) / (1 + r.2.TRUEZ)

/-- Claim C7: for a joined row with `TRUEZ ≠ -1`, the velocity offset `dv`
is exactly `3e5 (Z − TRUEZ) / (1 + TRUEZ)`: clearing the (nonzero)
denominator, `dv · (1 + TRUEZ) = 3e5 (Z − TRUEZ)`.  The code applies no
guard, so only this precondition makes the quotient well defined. -/
theorem dv_eq_velocity_offset (r : ZcatRow × TruthRow)
    (h : r.2.TRUEZ ≠ -1) :
    dv r * (1 + r.2.TRUEZ) = 3e5 * (r.1.Z - r.2.TRUEZ) := by
  have h1 : 1 + r.2.TRUEZ ≠ 0 := by
    intro h0
    apply h
    linarith
  unfold dv
  rw [div_mul_cancel₀ _ h1]

/-- Witness for claim C7 at a concrete joined row with `Z = 2`, `TRUEZ = 1`. -/
theorem dv_eq_velocity_offset_witness :
    dv (⟨1, 2, 0, 0, []⟩, ⟨1, 1, []⟩) *
        (1 + (⟨1, 1, []⟩ : TruthRow).TRUEZ) =
      3e5 * ((⟨1, 2, 0, 0, []⟩ : ZcatRow).Z - (⟨1, 1, []⟩ : TruthRow).TRUEZ) :=
  dv_eq_velocity_offset (⟨1, 2, 0, 0, []⟩, ⟨1, 1, []⟩) (by norm_num)

/-- Sequential execution of the notebooks' file reads: each read either
yields a table or fails with the reader's error; the cells run in order and
contain no handler, so the result of the session prefix is the list of
loaded tables or the first reader failure. -/
def readAll {Table : Type} (fs : String → Except String Table) :
    List String → Except String (List Table)
  | [] => Except.ok []
  | n :: rest => do
    let t ← fs n
    let ts ← readAll fs rest
    Except.ok (t :: ts)

/-- The file reads of the survey-simulation notebook, in cell order. -/
def nb1ReadNames : List String :=
  ["exposures.fits[exposures]", "exposures.fits[tiledata]", "stats.fits"]

/-- The file reads of the truth-comparison notebook, in cell order: the five
catalog tables, the grouped spectra, and the true-template file. -/
def nb2ReadNames : List String :=
  ["spectro/redux/mini/zcatalog-mini.fits", "targets/targets-bright.fits",
   "targets/targets-dark.fits", "targets/truth-bright.fits",
   "targets/truth-dark.fits", "spectra-64-5299.fits",
   "targets/008/truth-0084m085.fits"]

/-- All file reads both notebooks perform, in program order. -/
def sessionReadNames : List String := nb1ReadNames ++ nb2ReadNames

theorem readAll_error_of_mem {Table : Type} (fs : String → Except String Table)
    (e : String) (pre : List String) (n : String) (post : List String)
    (hfail : fs n = Except.error e)
    (hpre : ∀ m ∈ pre, ∃ t, fs m = Except.ok t) :
    readAll fs (pre ++ n :: post) = Except.error e := by
  induction pre with
  | nil => simp [readAll, hfail, Bind.bind, Except.bind]
  | cons m pre ih =>
    obtain ⟨t, ht⟩ := hpre m (by simp)
    have hrest := ih (fun m hm => hpre m (by simp [hm]))
    simp only [List.cons_append, readAll, ht, Bind.bind, Except.bind]
    rw [show pre.append (n :: post) = pre ++ n :: post from rfl, hrest]

/-- Claim C3: when any one of the files the notebooks read is absent or
malformed — the external reader fails with error `e` while every read before
it succeeded — the failure propagates uncaught to the top of the session:
no handler intercepts it, no fallback table is substituted, and the session
result is exactly `error e`, carrying no partially-modified state. -/
theorem session_read_failure_propagates {Table : Type}
    (fs : String → Except String Table) (e : String)
    (pre : List String) (n : String) (post : List String)
    (hsplit : sessionReadNames = pre ++ n :: post)
    (hfail : fs n = Except.error e)
    (hpre : ∀ m ∈ pre, ∃ t, fs m = Except.ok t) :
    readAll fs sessionReadNames = Except.error e := by
  rw [hsplit]
  exact readAll_error_of_mem fs e pre n post hfail hpre

/-- Witness for claim C3: a filesystem on which the very first read (the
exposures HDU) is missing makes the whole session fail with that error. -/
theorem session_read_failure_propagates_witness :
    readAll (fun _ => (Except.error "missing file" : Except String Unit))
        sessionReadNames =
      Except.error "missing file" :=
  session_read_failure_propagates (fun _ => Except.error "missing file")
    "missing file" [] "exposures.fits[exposures]"
    (["exposures.fits[tiledata]", "stats.fits"] ++ nb2ReadNames) rfl rfl
    (by simp)

/-- The kinds of observable actions a notebook cell can take on the process
or on the world outside it.  Writing a file and issuing a network request
are included in the vocabulary so that their absence from the traces below
is a checkable statement. -/
inductive Effect where
  | readFile : String → Effect
  | listDir : String → Effect
  | setEnv : String → Effect
  | chdir : String → Effect
  | compute : Effect
  | display : Effect
  | writeFile : String → Effect
  | netRequest : String → Effect
deriving DecidableEq

/-- Transcript of the survey-simulation notebook's cells, in order: set the
output directory variable, list it, read the two HDUs of `exposures.fits`,
print and plot summaries, read the tile catalog, read `stats.fits`, then
read the 100 weather-realization exposure files and print the completion
table. -/
def nb1Effects : List Effect :=
  [Effect.setEnv "DESISURVEY_OUTPUT",
   Effect.listDir "$DESISURVEY_OUTPUT",
   Effect.readFile "exposures.fits[exposures]",
   Effect.readFile "exposures.fits[tiledata]",
   Effect.display, Effect.display,
   Effect.readFile "desi-tiles (desisurvey.tiles.get_tiles)",
   Effect.display, Effect.display, Effect.display, Effect.display,
   Effect.display, Effect.display, Effect.display, Effect.display,
   Effect.display, Effect.display,
   Effect.readFile "stats.fits",
   Effect.display, Effect.display, Effect.display,
   Effect.compute, Effect.display] ++
  ((List.range 100).map fun i =>
    Effect.readFile ("weather/" ++ toString i ++ "/exposures.fits")) ++
  [Effect.display]

/-- Transcript of the truth-comparison notebook's cells, in order: change
into the reference-run directory, read the five catalog tables, strip the
TEMPLATETYPE column in memory, join and plot, set the two spectro
environment variables, read the grouped spectra and the true-template file,
and display results. -/
def nb2Effects : List Effect :=
  [Effect.chdir "$DESI_ROOT/datachallenge/reference_runs/19.12",
   Effect.readFile "spectro/redux/mini/zcatalog-mini.fits",
   Effect.readFile "targets/targets-bright.fits",
   Effect.readFile "targets/targets-dark.fits",
   Effect.readFile "targets/truth-bright.fits",
   Effect.readFile "targets/truth-dark.fits",
   Effect.compute, Effect.display, Effect.display,
   Effect.compute, Effect.display,
   Effect.compute, Effect.display,
   Effect.setEnv "DESI_SPECTRO_REDUX", Effect.setEnv "SPECPROD",
   Effect.compute,
   Effect.readFile "spectra-64-5299.fits",
   Effect.display, Effect.display, Effect.display,
   Effect.readFile "targets/008/truth-0084m085.fits",
   Effect.display, Effect.display, Effect.display]

/-- Transcript of the redrock BOSS demo notebook's cells, in order: read the
spPlate file, read the redshift templates, run the redshift scan, build the
rebinning matrix, and plot. -/
def redrockEffects : List Effect :=
  [Effect.readFile "spPlate-3678-55208.fits",
   Effect.readFile "redrock templates",
   Effect.compute, Effect.display, Effect.display,
   Effect.compute, Effect.display,
   Effect.compute, Effect.display]

/-- Every cell of every notebook, in session order. -/
def allSessionEffects : List Effect :=
  nb1Effects ++ nb2Effects ++ redrockEffects

/-- An effect permitted by the specification's frame: file/directory reads,
in-memory computation, display output, and the two process-local mutations
(environment variables and the working directory).  File writes and network
requests are not permitted. -/
def allowedEffect : Effect → Bool
  | Effect.readFile _ => true
  | Effect.listDir _ => true
  | Effect.setEnv _ => true
  | Effect.chdir _ => true
  | Effect.compute => true
  | Effect.display => true
  | Effect.writeFile _ => false
  | Effect.netRequest _ => false

/-- Claim C8: no operation in any of the notebooks writes to the filesystem
or a network endpoint; every file interaction is a read, and the only
process state mutated is in-memory objects, the working directory, and
environment variables. -/
theorem session_effects_read_only :
    allSessionEffects.all allowedEffect = true := by
  decide

/-- `rebin = 5` in the redrock notebook. -/
def rebin : Nat := 5

/-- The 0/1 matrix built by `i = arange(len(fit)); A = i - i[:,None];
w = abs(A) < rebin; A[w] = 1.; A[~w] = 0`: entry `(r, c)` is 1 when the row
and column indices differ by less than `rebin`, else 0. -/
def rawA (n : Nat) (r c : Fin n) : ℚ :=
  if |(c : ℤ) - (r : ℤ)| < (rebin : ℤ) then 1 else 0

/-- `A.sum(axis=1)`: the row sums of the 0/1 matrix. -/
def rowSumA (n : Nat) (r : Fin n) : ℚ := ∑ c, rawA n r c

/-- `A /= A.sum(axis=1).reshape(-1, 1)`: every row divided by its sum. -/
def A (n : Nat) (r c : Fin n) : ℚ := rawA n r c / rowSumA n r

theorem rawA_diag (n : Nat) (r : Fin n) : rawA n r r = 1 := by
  unfold rawA
  rw [sub_self, abs_zero, if_pos]
  norm_num [rebin]

theorem rawA_nonneg (n : Nat) (r c : Fin n) : 0 ≤ rawA n r c := by
  unfold rawA
  split <;> norm_num

theorem rowSumA_pos (n : Nat) (r : Fin n) : 0 < rowSumA n r := by
  have h := Finset.single_le_sum (f := fun c => rawA n r c)
    (fun i _ => rawA_nonneg n r i) (Finset.mem_univ r)
  simp only [rawA_diag] at h
  exact lt_of_lt_of_le zero_lt_one h

theorem sumA_eq_one (n : Nat) (r : Fin n) : ∑ c, A n r c = 1 := by
  have hpos := rowSumA_pos n r
  have hsum : ∑ c, A n r c = (∑ c, rawA n r c) / rowSumA n r := by
    unfold A
    rw [Finset.sum_div]
  rw [hsum]
  exact div_self (ne_of_gt hpos)

/-- Claim C9: the rebinning matrix `A` is row-stochastic with nonnegative
entries — every row sums to exactly 1 — its support is the window of
half-width 4 around the diagonal, and applying it to a constant spectrum
returns the same constant. -/
theorem rebin_matrix_row_stochastic (n : Nat) (r : Fin n) (k : ℚ) :
    (∀ c, 0 ≤ A n r c) ∧
    (∑ c, A n r c = 1) ∧
    (∀ c : Fin n, 4 < |(c : ℤ) - (r : ℤ)| → A n r c = 0) ∧
    (∑ c, A n r c * k = k) := by
  have hpos := rowSumA_pos n r
  refine ⟨?_, sumA_eq_one n r, ?_, ?_⟩
  · intro c
    exact div_nonneg (rawA_nonneg n r c) (le_of_lt hpos)
  · intro c hc
    have h5 : ¬ (|(c : ℤ) - (r : ℤ)| < (rebin : ℤ)) := by
      have hr5 : (rebin : ℤ) = 5 := by norm_num [rebin]
      rw [hr5]
      set m := |(c : ℤ) - (r : ℤ)| with hm
      omega
    unfold A rawA
    rw [if_neg h5, zero_div]
  · rw [← Finset.sum_mul, sumA_eq_one n r, one_mul]

/-- Witness for claim C9 at a 10-pixel spectrum, row 0, constant value 7. -/
theorem rebin_matrix_row_stochastic_witness :
    (∀ c, 0 ≤ A 10 0 c) ∧
    (∑ c, A 10 0 c = 1) ∧
    (∀ c : Fin 10, 4 < |(c : ℤ) - ((0 : Fin 10) : ℤ)| → A 10 0 c = 0) ∧
    (∑ c, A 10 0 c * 7 = 7) :=
  rebin_matrix_row_stochastic 10 0 7
